import Mathlib

/-
Verification development for heightmap2brz.

Shallow embedding of the two front-end source files of the repository:
  * src/main.rs        (CLI front-end, `fn main`)
  * src/gui/app.rs     (GUI front-end, `HeightmapApp`)

Pure fragments (option-record construction, string/extension dispatch,
argument parsing) are translated directly; the worker thread spawned by
`HeightmapApp::run_converter` is embedded as a pure function from its
inputs (stop-poll results, image-loading result, generator behaviour,
encoder results) to the observable outputs (progress reports sent on the
progress channel, the promise outcome, which encoder was invoked and
whether the output target was written).

The generation engine `gen_opt_heightmap` lives in a module that is not
part of the two files above; where its behaviour matters (the progress
callback / cancellation contract) it is modelled from the specification,
as marked on the corresponding definitions.
-/

deriving instance DecidableEq for Except

/-! ### Strings, lowercasing and extension dispatch -/

/-- Embeds Rust `str::to_lowercase` (ASCII fragment, which is all that the
extension and filename comparisons in main.rs / app.rs exercise): lower each
character with the basic-latin lowering `Char.toLower`. -/
def sLower (s : String) : String := ⟨s.data.map Char.toLower⟩

/-- Embeds Rust `str::ends_with`: the pattern's characters are a suffix of the
subject's characters. -/
def sEndsWith (s t : String) : Bool := decide (t.data <:+ s.data)

/-- The two output container formats of the repository. -/
inductive OutFormat
| brz
| brdb
deriving DecidableEq

/-- Embeds the output-format dispatch shared verbatim by both front-ends
(main.rs:146-166 and app.rs:196-220):
`if out_file.to_lowercase().ends_with(".brz") { .. } else if
out_file.to_lowercase().ends_with(".brdb") { .. } else { error }`. -/
def outputDispatch (out : String) : Except String OutFormat :=
  if sEndsWith (sLower out) ".brz" then Except.ok OutFormat.brz
  else if sEndsWith (sLower out) ".brdb" then Except.ok OutFormat.brdb
  else Except.error "output file must end with .brz or .brdb"

/-- Embeds the input-image extension test of main.rs:100-126: an extension
(`file_ext` result) is accepted when its lowercasing is `png`, `jpg` or
`jpeg`; a missing extension is rejected. -/
def imageExtOk (ext : Option String) : Bool :=
  match ext.map sLower with
  | some e => e == "png" || e == "jpg" || e == "jpeg"
  | none => false

/-! ### Options records -/

/-- The five brick-asset constants imported from the `brdb` crate by the two
front-ends.  They are distinct asset identifiers in that crate, so they are
modelled as distinct constructors. -/
inductive AssetId
| PB_DEFAULT_BRICK
| PB_DEFAULT_TILE
| PB_DEFAULT_SMOOTH_TILE
| PB_DEFAULT_STUDDED
| PB_DEFAULT_MICRO_BRICK
deriving DecidableEq

/-- Embeds `GenOptions` as constructed by the front-ends.  `size` is a `u16`
value and `scale` a `u32` value in the source; they are embedded as `Nat`
with wraparound (`% 2 ^ 16`) applied where the source multiplies. -/
structure GenOptions where
  size : Nat
  scale : Nat
  cull : Bool
  asset : AssetId
  micro : Bool
  stud : Bool
  snap : Bool
  img : Bool
  glow : Bool
  hdmap : Bool
  lrgb : Bool
  nocollide : Bool
  quadtree : Bool
  greedy : Bool
deriving DecidableEq

/-- Decimal digit value of a character, as accepted by Rust's integer
`FromStr` (ASCII `0`-`9` only). -/
def digitVal? (c : Char) : Option Nat :=
  if 48 ≤ c.toNat ∧ c.toNat ≤ 57 then some (c.toNat - 48) else none

/-- Accumulate decimal digits; fails on any non-digit character. -/
def parseDigits : List Char → Nat → Option Nat
  | [], acc => some acc
  | c :: cs, acc =>
    match digitVal? c with
    | some d => parseDigits cs (acc * 10 + d)
    | none => none

/-- Embeds Rust `str::parse::<uN>()` for an unsigned type with `bound = 2^N`:
an optional leading `+`, then one or more ASCII digits, and the value must
fit the type (otherwise the parse fails with an overflow error). -/
def parseUInt (bound : Nat) (s : String) : Option Nat :=
  let cs := match s.data with
    | '+' :: rest => rest
    | cs => cs
  match cs with
  | [] => none
  | _ :: _ =>
    match parseDigits cs 0 with
    | some n => if n < bound then some n else none
    | none => none

/-- The clap argument matches consumed by `fn main` (main.rs:21-58):
`value_of` results for the valued arguments, `values_of("INPUT")`, and
`is_present` results for the flags. -/
structure CliArgs where
  input : List String
  output : Option String
  colormap : Option String
  vertical : Option String
  size : Option String
  cull : Bool
  tile : Bool
  smooth : Bool
  micro : Bool
  stud : Bool
  snap : Bool
  lrgb : Bool
  img : Bool
  glow : Bool
  hdmap : Bool
  nocollide : Bool
  greedy : Bool
deriving DecidableEq

/-- Embeds the `GenOptions { .. }` construction of main.rs:61-95.  `none`
models the `expect` panic when a supplied size/vertical value does not parse
as `u16`/`u32`.  Note `quadtree: true` is hard-coded and `greedy` mirrors the
`--greedy` flag. -/
def cliOptions (a : CliArgs) : Option GenOptions :=
  match parseUInt 65536 (a.size.getD "1"), parseUInt 4294967296 (a.vertical.getD "1") with
  | some sz, some sc =>
    some
      { size := (sz * (if a.micro then 1 else 5)) % 65536
        scale := sc
        cull := a.cull
        asset :=
          if a.micro then AssetId.PB_DEFAULT_MICRO_BRICK
          else if a.tile then AssetId.PB_DEFAULT_TILE
          else if a.smooth then AssetId.PB_DEFAULT_SMOOTH_TILE
          else if a.stud then AssetId.PB_DEFAULT_STUDDED
          else AssetId.PB_DEFAULT_BRICK
        micro := a.micro
        stud := a.stud
        snap := a.snap
        img := a.img
        glow := a.glow
        hdmap := a.hdmap
        lrgb := a.lrgb
        nocollide := a.nocollide
        quadtree := true
        greedy := a.greedy }
  | _, _ => none

/-- Embeds main.rs:55-58: `matches.value_of("output").unwrap_or("./out.brz")`. -/
def cliOutFile (a : CliArgs) : String := a.output.getD "./out.brz"

/-- Embeds main.rs:51-54: the colormap path defaults to the first heightmap
input (`unwrap_or(heightmap_files[0].clone())`); `none` only when there is no
input at all (clap's `+required` guarantees at least one). -/
def cliColormapFile (a : CliArgs) : Option String :=
  match a.colormap with
  | some p => some p
  | none => a.input.head?

/-! ### GUI front-end -/

/-- `BrickMode` of app.rs:25-32. -/
inductive BrickMode
| Default
| Tile
| SmoothTile
| Stud
| Micro
deriving DecidableEq

/-- `OptimizationMode` of app.rs:34-39. -/
inductive OptimizationMode
| None
| Quad
| Greedy
deriving DecidableEq

/-- The generator-relevant state of `HeightmapApp` (app.rs:43-64); the UI-only
fields (clipboard toggle, window level, progress channel, promise) are not
part of the options construction. -/
structure HeightmapApp where
  heightmaps : List String
  colormap : Option String
  out_file : String
  vertical_scale : Nat
  horizontal_size : Nat
  optimization : OptimizationMode
  opt_cull : Bool
  opt_nocollide : Bool
  opt_lrgb : Bool
  opt_hdmap : Bool
  opt_snap : Bool
  opt_glow : Bool
  mode : BrickMode
deriving DecidableEq

/-- The `Default` impl of app.rs:66-91. -/
def HeightmapApp.defaultApp : HeightmapApp :=
  { heightmaps := []
    colormap := none
    out_file := "out.brz"
    vertical_scale := 1
    horizontal_size := 1
    optimization := OptimizationMode.Quad
    opt_cull := false
    opt_nocollide := false
    opt_lrgb := false
    opt_hdmap := false
    opt_snap := false
    opt_glow := false
    mode := BrickMode.Micro }

/-- Embeds `HeightmapApp::options` (app.rs:107-134).  `horizontal_size` is a
`u16` in the source, so the `* 5` multiplication wraps modulo `2 ^ 16`. -/
def HeightmapApp.options (app : HeightmapApp) : GenOptions :=
  { size :=
      if app.mode = BrickMode.Micro then app.horizontal_size % 65536
      else (app.horizontal_size * 5) % 65536
    scale := app.vertical_scale
    cull := app.opt_cull
    asset :=
      match app.mode with
      | BrickMode.Default => AssetId.PB_DEFAULT_BRICK
      | BrickMode.Tile => AssetId.PB_DEFAULT_BRICK
      | BrickMode.SmoothTile => AssetId.PB_DEFAULT_SMOOTH_TILE
      | BrickMode.Stud => AssetId.PB_DEFAULT_STUDDED
      | BrickMode.Micro => AssetId.PB_DEFAULT_MICRO_BRICK
    micro := app.mode = BrickMode.Micro
    stud := app.mode = BrickMode.Stud
    snap := app.opt_snap
    img := app.heightmaps.isEmpty && app.colormap.isSome
    glow := app.opt_glow
    hdmap := app.opt_hdmap
    lrgb := app.opt_lrgb
    nocollide := app.opt_nocollide
    quadtree := app.optimization = OptimizationMode.Quad
    greedy := app.optimization = OptimizationMode.Greedy }

/-- Embeds the clamping behaviour of the `egui::Slider` widgets used in
`draw_settings` (app.rs:326-333): a slider over `lo..=hi` keeps its bound
value inside the range. -/
def sliderClamp (lo hi v : Nat) : Nat := max lo (min hi v)

/-- The effect of the `draw_settings` sliders (app.rs:326-333) on the two
numeric fields: both are bound to `Slider::new(.., 1..=100)`. -/
def draw_settings_clamp (app : HeightmapApp) : HeightmapApp :=
  { app with
    horizontal_size := sliderClamp 1 100 app.horizontal_size
    vertical_scale := sliderClamp 1 100 app.vertical_scale }

/-! ### The GUI worker thread (`HeightmapApp::run_converter`, app.rs:136-271)

The worker is embedded as a pure function.  Its effectful collaborators
become explicit inputs:

  * `stops k`   — the result of the `k`-th call to the `is_stopped` closure
                  (`rx.try_recv().is_ok()`); call sites are numbered in
                  program order: `0` is the `stop_if_stopped!` after image
                  reading, `1, 2, ...` are the polls made by the generation
                  progress callback, the first index after those is the
                  `stop_if_stopped!` after generation, and the next one the
                  final `stop_if_stopped!` after writing;
  * `maps`      — the result of `maps_from_files`;
  * `ps`/`genRes`/`cancelMsg` — the generator's behaviour (see `engineLoop`);
  * `encodeRes` — the result of `BrzData::to_brz_vec`;
  * `wRes`      — the result of `std::fs::write`;
  * `bRes`      — the result of `write_brdb`.

The observable outputs are collected in `RunResult`. -/

/-- The fraction the GUI progress callback reports for a generator progress
value `p`: `0.1 + 0.85 * p` (app.rs:181), over `ℚ`. -/
def affFrac (p : ℚ) : ℚ := 1 / 10 + 85 / 100 * p

/-- A single progress-channel message sent by the generation callback. -/
def genRep (p : ℚ) : String × ℚ := ("Generating", affFrac p)

/-- Modelled from the spec: the progress/cancellation contract of the
generation engine `gen_opt_heightmap`, whose source module is not among the
embedded files.  Per §4.2/§5 of the specification the engine periodically
invokes the caller-supplied callback with a fraction and polls it for
cancellation between units of work; the GUI's callback (app.rs:180-183)
first sends `("Generating", 0.1 + 0.85 * p)` on the progress channel and
then returns `!is_stopped()`.  `ps` is the sequence of fractions the engine
would report on an uninterrupted run; the loop stops early as soon as the
callback observes a stop.  Returns the messages actually sent, the next
unused poll index, and whether the run completed without observing a stop. -/
def engineLoop (stops : Nat → Bool) : List ℚ → Nat → List (String × ℚ) × Nat × Bool
  | [], k => ([], k, true)
  | p :: ps, k =>
    if stops k then ([genRep p], k + 1, false)
    else (genRep p :: (engineLoop stops ps (k + 1)).1, (engineLoop stops ps (k + 1)).2)

/-- Progress messages sent up to and including `("Reading", 0.0)`
(app.rs:155). -/
def repsRead : List (String × ℚ) := [("Reading", 0)]

/-- Progress messages sent once generation has started: `("Generating", 0.10)`
(app.rs:178) followed by the callback messages `g`. -/
def repsGen (g : List (String × ℚ)) : List (String × ℚ) :=
  repsRead ++ [("Generating", 1 / 10)] ++ g

/-- Progress messages once the writing phase is reached: adds
`("Writing", 0.95)` (app.rs:193). -/
def repsWrite (g : List (String × ℚ)) : List (String × ℚ) :=
  repsGen g ++ [("Writing", 19 / 20)]

/-- Progress messages of a successful run: adds `("Finished", 1.0)`
(app.rs:261) and the final `("", 2.0)` sent after the 500 ms sleep
(app.rs:266). -/
def repsDone (g : List (String × ℚ)) : List (String × ℚ) :=
  repsWrite g ++ [("Finished", 1), ("", 2)]

/-- Observable outputs of one worker run: the progress-channel messages in
send order, the value delivered to the promise (`Result<(), String>`),
whether `bricks_to_save` was reached (a BrickSet handed on towards the
encoders), which encoder was invoked, and whether an output write call
(`std::fs::write` / `write_brdb`) was made on the output target. -/
structure RunResult where
  reports : List (String × ℚ)
  outcome : Except String Unit
  handed : Bool
  invokedBrz : Bool
  invokedBrdb : Bool
  wrote : Bool
deriving DecidableEq

/-- Embeds the worker thread body of `HeightmapApp::run_converter`
(app.rs:151-267), with the non-Windows clipboard branch (log only).  Control
flow follows the source exactly: read images, `stop_if_stopped!`, generate
(callback polls interleaved), `stop_if_stopped!`, build the save data,
dispatch on the output extension, encode/write, `stop_if_stopped!`, report
`("Finished", 1.0)` and finally `("", 2.0)`. -/
def runConverter (outFile : String) (stops : Nat → Bool) (maps : Except String Unit)
    (ps : List ℚ) (genRes : Except String Unit) (cancelMsg : String)
    (encodeRes wRes bRes : Except String Unit) : RunResult :=
  match maps with
  | Except.error e => ⟨repsRead, Except.error e, false, false, false, false⟩
  | Except.ok _ =>
    if stops 0 then ⟨repsRead, Except.error "Stopped by user", false, false, false, false⟩
    else
      let g := (engineLoop stops ps 1).1
      let k := (engineLoop stops ps 1).2.1
      if (engineLoop stops ps 1).2.2 = false then
        ⟨repsGen g, Except.error cancelMsg, false, false, false, false⟩
      else
        match genRes with
        | Except.error e => ⟨repsGen g, Except.error e, false, false, false, false⟩
        | Except.ok _ =>
          if stops k then ⟨repsGen g, Except.error "Stopped by user", false, false, false, false⟩
          else
            match outputDispatch outFile with
            | Except.error e => ⟨repsWrite g, Except.error e, true, false, false, false⟩
            | Except.ok OutFormat.brz =>
              match encodeRes with
              | Except.error e =>
                ⟨repsWrite g, Except.error ("failed to encode brz: " ++ e), true, true, false, false⟩
              | Except.ok _ =>
                match wRes with
                | Except.error e =>
                  ⟨repsWrite g, Except.error ("failed to write file: " ++ e), true, true, false, true⟩
                | Except.ok _ =>
                  if stops (k + 1) then
                    ⟨repsWrite g, Except.error "Stopped by user", true, true, false, true⟩
                  else ⟨repsDone g, Except.ok (), true, true, false, true⟩
            | Except.ok OutFormat.brdb =>
              match bRes with
              | Except.error e =>
                ⟨repsWrite g, Except.error ("failed to write file: " ++ e), true, false, true, true⟩
              | Except.ok _ =>
                if stops (k + 1) then
                  ⟨repsWrite g, Except.error "Stopped by user", true, false, true, true⟩
                else ⟨repsDone g, Except.ok (), true, false, true, true⟩

/-! ### Concrete front-end inputs used for evaluation -/

/-- A minimal CLI invocation: one input image, no flags, no valued options. -/
def baseArgs : CliArgs :=
  { input := ["hm.png"], output := none, colormap := none, vertical := none, size := none
    cull := false, tile := false, smooth := false, micro := false, stud := false, snap := false
    lrgb := false, img := false, glow := false, hdmap := false, nocollide := false
    greedy := false }

/-- `heightmap hm.png --greedy`. -/
def greedyArgs : CliArgs := { baseArgs with greedy := true }

/-- `heightmap hm.png --tile`. -/
def tileArgs : CliArgs := { baseArgs with tile := true }

/-- `heightmap hm.png -s 13108` (a `u16` size whose `* 5` wraps). -/
def a13108 : CliArgs := { baseArgs with size := some "13108" }

/-- `heightmap hm.png -s 200 -v 200` (values outside the documented 1..100). -/
def a200 : CliArgs := { baseArgs with size := some "200", vertical := some "200" }

/-- The options record produced by `cliOptions baseArgs`. -/
def baseOpts : GenOptions :=
  { size := 5, scale := 1, cull := false, asset := AssetId.PB_DEFAULT_BRICK
    micro := false, stud := false, snap := false, img := false, glow := false
    hdmap := false, lrgb := false, nocollide := false, quadtree := true, greedy := false }

/-- The GUI app state with the `Tile` brick type selected. -/
def tileApp : HeightmapApp := { HeightmapApp.defaultApp with mode := BrickMode.Tile }

/-- A worker run where the user has already pressed Stop before the first
poll: every `is_stopped` call observes a stop. -/
def cancelRun : RunResult :=
  runConverter "out.brz" (fun _ => true) (Except.ok ()) [] (Except.ok ()) "cm"
    (Except.ok ()) (Except.ok ()) (Except.ok ())

/-- A worker run that fails while reading the images. -/
def failRun : RunResult :=
  runConverter "out.brz" (fun _ => false) (Except.error "boom") [] (Except.ok ()) "cm"
    (Except.ok ()) (Except.ok ()) (Except.ok ())

/-- An uninterrupted, fully successful worker run with two generator
progress callbacks. -/
def okRun : RunResult :=
  runConverter "out.brz" (fun _ => false) (Except.ok ()) [0, 1] (Except.ok ()) "cm"
    (Except.ok ()) (Except.ok ()) (Except.ok ())

/-! ### Helper lemmas -/

/-- ASCII lowering is idempotent on characters. -/
theorem toLower_toLower (c : Char) : Char.toLower (Char.toLower c) = Char.toLower c := by
  simp only [Char.toLower]
  by_cases h : 65 ≤ c.toNat ∧ c.toNat ≤ 90
  · rw [if_pos h]
    have hvalid : (c.toNat + 32).isValidChar := Or.inl (by omega)
    have hv : (Char.ofNat (c.toNat + 32)).toNat = c.toNat + 32 := by
      rw [Char.ofNat, dif_pos hvalid]
      rfl
    rw [if_neg (by rw [hv]; omega)]
  · rw [if_neg h, if_neg h]

/-- Lowercasing a string twice is the same as lowercasing it once. -/
theorem sLower_idem (s : String) : sLower (sLower s) = sLower s := by
  simp only [sLower, List.map_map]
  congr 1
  apply List.map_congr_left
  intro c _
  exact toLower_toLower c

/-- A nonempty suffix determines the last element of the list. -/
theorem suffix_getLastQ {t l : List Char} (h : t <:+ l) (hne : t ≠ []) :
    l.getLast? = t.getLast? := by
  obtain ⟨s, rfl⟩ := h
  exact List.getLast?_append_of_ne_nil s hne

/-- No character list ends with both `".brz"` and `".brdb"`. -/
theorem brz_brdb_not_both {l : List Char} (h1 : ".brz".data <:+ l)
    (h2 : ".brdb".data <:+ l) : False := by
  have e1 := suffix_getLastQ h1 (by decide)
  have e2 := suffix_getLastQ h2 (by decide)
  rw [e1] at e2
  revert e2
  decide

/-- A value accepted by `parseUInt` fits the type's bound. -/
theorem parseUInt_lt {b : Nat} {s : String} {n : Nat} (h : parseUInt b s = some n) :
    n < b := by
  unfold parseUInt at h
  dsimp only at h
  split at h
  · exact absurd h (by simp)
  · split at h
    · split at h
      · cases h
        assumption
      · exact absurd h (by simp)
    · exact absurd h (by simp)

/-! ### C1: quadtree / greedy strategy selectors -/

/-- C1 counterexample: the CLI front-end hard-codes `quadtree: true`
(main.rs:93), so the invocation `heightmap hm.png --greedy` constructs a
`GenOptions` record with `quadtree` and `greedy` both true — the two
selectors are not mutually exclusive in every front-end configuration. -/
theorem C1_counterexample :
    (cliOptions greedyArgs).map (fun o => o.quadtree && o.greedy) = some true := by
  decide

/-- C1 amended: in the GUI front-end the two selectors are mutually
exclusive and both-false holds exactly for the `None` optimization choice;
in the CLI front-end `quadtree` is always true (so `--greedy` yields both
flags set and the both-false configuration is unreachable). -/
theorem C1_amended :
    (∀ app : HeightmapApp,
      app.options.quadtree = false ∨ app.options.greedy = false) ∧
    (∀ app : HeightmapApp,
      (app.options.quadtree = false ∧ app.options.greedy = false) ↔
        app.optimization = OptimizationMode.None) ∧
    (∀ a : CliArgs, ((cliOptions a).all fun o => o.quadtree) = true) := by
  refine ⟨?_, ?_, ?_⟩
  · intro app
    cases h : app.optimization <;> simp [HeightmapApp.options, h]
  · intro app
    cases h : app.optimization <;> simp [HeightmapApp.options, h]
  · intro a
    unfold cliOptions
    cases parseUInt 65536 (a.size.getD "1") <;>
      cases parseUInt 4294967296 (a.vertical.getD "1") <;> rfl

/-! ### C2: brick-family to asset mapping -/

/-- C2: at the failing input (GUI, Brick Type `Tile`), `HeightmapApp::options`
records `PB_DEFAULT_BRICK` (app.rs:118), not the tile asset, while the CLI
maps `--tile` to `PB_DEFAULT_TILE` (main.rs:77) — the GUI's mapping of the
`Tile` family deviates from the exhaustive family-to-asset table. -/
theorem C2_theorem :
    tileApp.options.asset = AssetId.PB_DEFAULT_BRICK ∧
    AssetId.PB_DEFAULT_BRICK ≠ AssetId.PB_DEFAULT_TILE ∧
    (cliOptions tileArgs).map GenOptions.asset = some AssetId.PB_DEFAULT_TILE := by
  decide

/-! ### C5: the ×5 footprint multiplier -/

/-- C5 counterexample: `size` is a `u16`, so the CLI's `* 5` wraps: with
`-s 13108` the stored size is `13108 * 5 mod 2^16 = 4`, not `13108 * 5`. -/
theorem C5_counterexample :
    (cliOptions a13108).map GenOptions.size = some 4 ∧ (4 : Nat) ≠ 13108 * 5 := by
  decide

/-- C5 amended: the stored `size` is the user value for the micro family and
the user value times 5 reduced modulo `2^16` otherwise (equal to the plain
product whenever it fits `u16`, in particular on the documented 1..100
range); the GUI computes the same under its slider bound. -/
theorem C5_amended (a : CliArgs) (o : GenOptions) (v : Nat) (app : HeightmapApp)
    (h1 : cliOptions a = some o)
    (h2 : parseUInt 65536 (a.size.getD "1") = some v)
    (h3 : app.horizontal_size ≤ 100) :
    ((a.micro = true → o.size = v) ∧
     (a.micro = false → o.size = (v * 5) % 65536) ∧
     (a.micro = false → v * 5 < 65536 → o.size = v * 5)) ∧
    ((app.mode = BrickMode.Micro → app.options.size = app.horizontal_size) ∧
     (app.mode ≠ BrickMode.Micro → app.options.size = app.horizontal_size * 5)) := by
  have hvlt : v < 65536 := parseUInt_lt h2
  constructor
  · unfold cliOptions at h1
    rw [h2] at h1
    rcases hv : parseUInt 4294967296 (a.vertical.getD "1") with _ | sc
    · rw [hv] at h1
      cases h1
    · rw [hv] at h1
      cases h1
      refine ⟨?_, ?_, ?_⟩
      · intro hm
        simp [hm, Nat.mod_eq_of_lt hvlt]
      · intro hm
        simp [hm]
      · intro hm hfit
        simp [hm, Nat.mod_eq_of_lt hfit]
  · constructor
    · intro hm
      simp only [HeightmapApp.options, hm, if_pos]
      exact Nat.mod_eq_of_lt (by omega)
    · intro hm
      simp only [HeightmapApp.options, if_neg hm]
      exact Nat.mod_eq_of_lt (by omega)

/-- C5 witness: the amended statement applied to the minimal CLI invocation
and the default GUI state. -/
theorem C5_witness :
    cliOptions baseArgs = some baseOpts ∧
    parseUInt 65536 (baseArgs.size.getD "1") = some 1 ∧
    HeightmapApp.defaultApp.horizontal_size ≤ 100 ∧
    (((baseArgs.micro = true → baseOpts.size = 1) ∧
      (baseArgs.micro = false → baseOpts.size = (1 * 5) % 65536) ∧
      (baseArgs.micro = false → 1 * 5 < 65536 → baseOpts.size = 1 * 5)) ∧
     ((HeightmapApp.defaultApp.mode = BrickMode.Micro →
        HeightmapApp.defaultApp.options.size = HeightmapApp.defaultApp.horizontal_size) ∧
      (HeightmapApp.defaultApp.mode ≠ BrickMode.Micro →
        HeightmapApp.defaultApp.options.size = HeightmapApp.defaultApp.horizontal_size * 5))) :=
  ⟨by decide, by decide, by decide,
    C5_amended baseArgs baseOpts 1 HeightmapApp.defaultApp (by decide) (by decide) (by decide)⟩

/-! ### C7: the 1..100 configuration range -/

/-- C7 counterexample: the CLI performs no range validation: `-s 200 -v 200`
is accepted into `GenOptions` (scale 200, size 200 × 5 = 1000), although 200
lies outside 1..100. -/
theorem C7_counterexample :
    (cliOptions a200).map GenOptions.scale = some 200 ∧ ¬ (200 ≤ 100) := by
  decide

/-- C7 amended: only the GUI enforces the 1..100 range (its two sliders clamp
to `1..=100`); the CLI accepts any value that parses as `u16` (size) or
`u32` (vertical scale) with no range check, e.g. 200 for both. -/
theorem C7_amended :
    (∀ app : HeightmapApp,
      1 ≤ (draw_settings_clamp app).horizontal_size ∧
      (draw_settings_clamp app).horizontal_size ≤ 100 ∧
      1 ≤ (draw_settings_clamp app).vertical_scale ∧
      (draw_settings_clamp app).vertical_scale ≤ 100) ∧
    (cliOptions a200).map GenOptions.scale = some 200 ∧
    (cliOptions a200).map GenOptions.size = some 1000 := by
  refine ⟨?_, by decide, by decide⟩
  intro app
  simp only [draw_settings_clamp, sliderClamp]
  omega

/-! ### C8: colormap defaulting in the CLI -/

/-- C8: with at least one heightmap input and no `--colormap`, the CLI uses
the first heightmap file as the colormap image, so a colormap is always
present when generation runs. -/
theorem C8_confirmed (a : CliArgs) (x : String) (xs : List String)
    (h1 : a.input = x :: xs) (h2 : a.colormap = none) :
    cliColormapFile a = some x ∧ (cliColormapFile a).isSome = true := by
  simp [cliColormapFile, h1, h2]

/-- C8 witness: the minimal CLI invocation. -/
theorem C8_witness :
    baseArgs.input = "hm.png" :: [] ∧ baseArgs.colormap = none ∧
    (cliColormapFile baseArgs = some "hm.png" ∧
      (cliColormapFile baseArgs).isSome = true) :=
  ⟨by decide, by decide, C8_confirmed baseArgs "hm.png" [] (by decide) (by decide)⟩

/-! ### C9: the default output path -/

/-- C9 counterexample: the CLI default output string is `"./out.brz"`
(main.rs:57), which is not the string `"out.brz"` (the GUI default). -/
theorem C9_counterexample :
    cliOutFile baseArgs = "./out.brz" ∧ "./out.brz" ≠ "out.brz" := by
  decide

/-- C9 amended: with no output argument the CLI defaults to `"./out.brz"`
and the GUI to `"out.brz"` — both name the file `out.brz` in the current
directory and both select the compact `.brz` container format. -/
theorem C9_amended (a : CliArgs) (h : a.output = none) :
    cliOutFile a = "./out.brz" ∧
    outputDispatch (cliOutFile a) = Except.ok OutFormat.brz ∧
    HeightmapApp.defaultApp.out_file = "out.brz" ∧
    outputDispatch HeightmapApp.defaultApp.out_file = Except.ok OutFormat.brz := by
  have he : cliOutFile a = "./out.brz" := by simp [cliOutFile, h]
  refine ⟨he, ?_, by decide, by decide⟩
  rw [he]
  decide

/-- C9 witness: the minimal CLI invocation has no output argument. -/
theorem C9_witness :
    baseArgs.output = none ∧
    (cliOutFile baseArgs = "./out.brz" ∧
     outputDispatch (cliOutFile baseArgs) = Except.ok OutFormat.brz ∧
     HeightmapApp.defaultApp.out_file = "out.brz" ∧
     outputDispatch HeightmapApp.defaultApp.out_file = Except.ok OutFormat.brz) :=
  ⟨rfl, C9_amended baseArgs rfl⟩

/-! ### C6: output-format dispatch by extension -/

/-- C6: for every output path the dispatch shared by both front-ends selects
the `.brz` encoder (`to_brz_vec`) exactly when the lowercased filename ends
with `.brz`, the `.brdb` writer (`write_brdb`) exactly when it ends with
`.brdb`, and otherwise surfaces the configuration error, selecting neither
encoder. -/
theorem C6_confirmed (out : String) :
    (outputDispatch out = Except.ok OutFormat.brz ↔
      sEndsWith (sLower out) ".brz" = true) ∧
    (outputDispatch out = Except.ok OutFormat.brdb ↔
      sEndsWith (sLower out) ".brdb" = true) ∧
    (outputDispatch out = Except.error "output file must end with .brz or .brdb" ↔
      (sEndsWith (sLower out) ".brz" = false ∧ sEndsWith (sLower out) ".brdb" = false)) := by
  by_cases h1 : sEndsWith (sLower out) ".brz" = true
  · have h2 : sEndsWith (sLower out) ".brdb" = false := by
      by_contra hc
      simp only [Bool.not_eq_false] at hc
      exact brz_brdb_not_both (of_decide_eq_true h1) (of_decide_eq_true hc)
    simp [outputDispatch, h1, h2]
  · by_cases h2 : sEndsWith (sLower out) ".brdb" = true
    · simp [outputDispatch, h1, h2]
    · simp [outputDispatch, h1, h2]

/-! ### C10: case-insensitive extension handling -/

/-- C10: all extension tests are case-insensitive: the image-extension test
and the output-format dispatch give the same result on a string and on its
lowercasing, an extension is accepted exactly when its ASCII lowercasing is
`png`/`jpg`/`jpeg`, and concrete mixed-case inputs behave like lowercase
ones. -/
theorem C10_confirmed :
    (∀ e : String, imageExtOk (some e) = imageExtOk (some (sLower e))) ∧
    (∀ out : String, outputDispatch out = outputDispatch (sLower out)) ∧
    (∀ e : String, imageExtOk (some e) = true ↔
      (sLower e = "png" ∨ sLower e = "jpg" ∨ sLower e = "jpeg")) ∧
    imageExtOk (some "PNG") = true ∧ imageExtOk (some "Jpeg") = true ∧
    outputDispatch "OUT.BRZ" = Except.ok OutFormat.brz ∧
    outputDispatch "map.BrDb" = Except.ok OutFormat.brdb := by
  refine ⟨?_, ?_, ?_, by decide, by decide, by decide, by decide⟩
  · intro e
    simp [imageExtOk, sLower_idem]
  · intro out
    simp [outputDispatch, sLower_idem]
  · intro e
    simp [imageExtOk]
    tauto

/-! ### Progress-sequence lemmas for the worker model -/

/-- The first message of a nonempty engine loop is the report for the first
fraction. -/
theorem engineLoop_head (stops : Nat → Bool) (p : ℚ) (ps : List ℚ) (k : Nat) :
    ((engineLoop stops (p :: ps) k).1).head? = some (genRep p) := by
  cases hs : stops k <;> simp [engineLoop, hs]

/-- Every message the engine loop sends is the report of one of the planned
fractions. -/
theorem engineLoop_mem (stops : Nat → Bool) :
    ∀ (ps : List ℚ) (k : Nat) (r : String × ℚ),
      r ∈ (engineLoop stops ps k).1 → ∃ p, p ∈ ps ∧ r = genRep p := by
  intro ps
  induction ps with
  | nil =>
    intro k r h
    simp [engineLoop] at h
  | cons p ps ih =>
    intro k r h
    cases hs : stops k
    · rw [show (engineLoop stops (p :: ps) k).1
          = genRep p :: (engineLoop stops ps (k + 1)).1 from by simp [engineLoop, hs]] at h
      rcases List.mem_cons.mp h with h | h
      · exact ⟨p, List.mem_cons_self p ps, h⟩
      · obtain ⟨q, hq, rfl⟩ := ih (k + 1) r h
        exact ⟨q, List.mem_cons_of_mem p hq, rfl⟩
    · rw [show (engineLoop stops (p :: ps) k).1 = [genRep p] from by simp [engineLoop, hs]] at h
      simp at h
      exact ⟨p, List.mem_cons_self p ps, h⟩

/-- If the planned fractions are non-decreasing, so are the sent messages. -/
theorem engineLoop_chain (stops : Nat → Bool) :
    ∀ (ps : List ℚ) (k : Nat), List.Chain' (· ≤ ·) ps →
      List.Chain' (fun a b : String × ℚ => a.2 ≤ b.2) (engineLoop stops ps k).1 := by
  intro ps
  induction ps with
  | nil =>
    intro k _
    simp [engineLoop]
  | cons p ps ih =>
    intro k hc
    cases hs : stops k
    · rw [show (engineLoop stops (p :: ps) k).1
          = genRep p :: (engineLoop stops ps (k + 1)).1 from by simp [engineLoop, hs]]
      rw [List.chain'_cons']
      refine ⟨?_, ih (k + 1) hc.tail⟩
      intro y hy
      cases ps with
      | nil => simp [engineLoop] at hy
      | cons q ps' =>
        rw [engineLoop_head] at hy
        simp only [Option.mem_def, Option.some.injEq] at hy
        subst hy
        have hpq : p ≤ q := (List.chain'_cons.mp hc).1
        show (genRep p).2 ≤ (genRep q).2
        simp only [genRep, affFrac]
        linarith
    · rw [show (engineLoop stops (p :: ps) k).1 = [genRep p] from by simp [engineLoop, hs]]
      simp

/-- If the planned fractions lie in `[0, 1]`, every sent fraction lies in
`[0.1, 0.95]`. -/
theorem engineLoop_bound (stops : Nat → Bool) (ps : List ℚ) (k : Nat)
    (hb : ∀ p ∈ ps, 0 ≤ p ∧ p ≤ 1) :
    ∀ r ∈ (engineLoop stops ps k).1, 1 / 10 ≤ r.2 ∧ r.2 ≤ 19 / 20 := by
  intro r hr
  obtain ⟨p, hp, rfl⟩ := engineLoop_mem stops ps k r hr
  obtain ⟨h0, h1⟩ := hb p hp
  constructor
  · show (1 : ℚ) / 10 ≤ (genRep p).2
    simp only [genRep, affFrac]
    linarith
  · show (genRep p).2 ≤ (19 : ℚ) / 20
    simp only [genRep, affFrac]
    linarith

/-- The report list up to generation is non-decreasing. -/
theorem chain_repsGen (g : List (String × ℚ))
    (hc : List.Chain' (fun a b : String × ℚ => a.2 ≤ b.2) g)
    (hb : ∀ r ∈ g, 1 / 10 ≤ r.2 ∧ r.2 ≤ 19 / 20) :
    List.Chain' (fun a b : String × ℚ => a.2 ≤ b.2) (repsGen g) := by
  show List.Chain' _ (("Reading", (0 : ℚ)) :: ("Generating", 1 / 10) :: g)
  rw [List.chain'_cons]
  constructor
  · norm_num
  · rw [List.chain'_cons']
    refine ⟨?_, hc⟩
    intro y hy
    exact (hb y (List.mem_of_mem_head? hy)).1

/-- The last report up to generation is at most `0.95`. -/
theorem getLast_repsGen (g : List (String × ℚ))
    (hb : ∀ r ∈ g, 1 / 10 ≤ r.2 ∧ r.2 ≤ 19 / 20) :
    ∀ x ∈ (repsGen g).getLast?, x.2 ≤ 19 / 20 := by
  cases g with
  | nil =>
    intro x hx
    simp only [repsGen, repsRead] at hx
    simp at hx
    subst hx
    norm_num
  | cons r g' =>
    rw [show repsGen (r :: g')
        = (repsRead ++ [("Generating", 1 / 10)]) ++ (r :: g') from rfl]
    rw [List.getLast?_append_of_ne_nil _ (by simp)]
    intro x hx
    simp only [Option.mem_def] at hx
    exact (hb x (List.mem_of_getLast?_eq_some hx)).2

/-- The report list up to the writing phase is non-decreasing. -/
theorem chain_repsWrite (g : List (String × ℚ))
    (hc : List.Chain' (fun a b : String × ℚ => a.2 ≤ b.2) g)
    (hb : ∀ r ∈ g, 1 / 10 ≤ r.2 ∧ r.2 ≤ 19 / 20) :
    List.Chain' (fun a b : String × ℚ => a.2 ≤ b.2) (repsWrite g) := by
  rw [repsWrite, List.chain'_append]
  refine ⟨chain_repsGen g hc hb, by simp, ?_⟩
  intro x hx y hy
  simp only [List.head?_cons, Option.mem_def, Option.some.injEq] at hy
  subst hy
  exact getLast_repsGen g hb x hx

/-- The full report list of a successful run is non-decreasing. -/
theorem chain_repsDone (g : List (String × ℚ))
    (hc : List.Chain' (fun a b : String × ℚ => a.2 ≤ b.2) g)
    (hb : ∀ r ∈ g, 1 / 10 ≤ r.2 ∧ r.2 ≤ 19 / 20) :
    List.Chain' (fun a b : String × ℚ => a.2 ≤ b.2) (repsDone g) := by
  rw [repsDone, List.chain'_append]
  refine ⟨chain_repsWrite g hc hb, ?_, ?_⟩
  · rw [List.chain'_cons]
    constructor
    · norm_num
    · simp
  · intro x hx y hy
    rw [repsWrite, List.getLast?_concat] at hx
    simp only [List.head?_cons, Option.mem_def, Option.some.injEq] at hx hy
    subst hx
    subst hy
    norm_num

/-- Every fraction in the reports of a (possibly unfinished) run lies in
`[0, 1]`, except the final `("", 2)` sentinel of a successful run. -/
theorem bound_repsDone (g : List (String × ℚ))
    (hb : ∀ r ∈ g, 1 / 10 ≤ r.2 ∧ r.2 ≤ 19 / 20) :
    ∀ r ∈ repsDone g, 0 ≤ r.2 ∧ (r.2 ≤ 1 ∨ r = ("", 2)) := by
  intro r hr
  have hcase : r = ("Reading", (0 : ℚ)) ∨ r = ("Generating", 1 / 10) ∨ r ∈ g ∨
      r = ("Writing", 19 / 20) ∨ r = ("Finished", 1) ∨ r = ("", 2) := by
    simp only [repsDone, repsWrite, repsGen, repsRead, List.append_assoc,
      List.cons_append, List.nil_append, List.mem_append, List.mem_cons,
      List.not_mem_nil, or_false, false_or] at hr
    tauto
  rcases hcase with h | h | h | h | h | h
  · subst h; norm_num
  · subst h; norm_num
  · obtain ⟨h1, h2⟩ := hb r h
    constructor
    · linarith
    · left; linarith
  · subst h; norm_num
  · subst h; norm_num
  · subst h
    exact ⟨by norm_num, Or.inr rfl⟩

/-- Any report of any branch shape occurs in the full successful list. -/
theorem mem_repsDone_of_shape (g : List (String × ℚ)) (r : String × ℚ) :
    r ∈ repsRead ∨ r ∈ repsGen g ∨ r ∈ repsWrite g ∨ r ∈ repsDone g →
      r ∈ repsDone g := by
  simp only [repsDone, repsWrite, repsGen, repsRead, List.append_assoc, List.cons_append,
    List.nil_append, List.mem_append, List.mem_cons, List.not_mem_nil, or_false, false_or]
  tauto



/-- Master case analysis of the worker model: the reports always take one of
the four prefix shapes; a run that delivers `Ok(())` has sent the full list;
and once images are loaded, a stop observed at any poll up to the
post-generation check yields an error outcome with nothing handed to the
encoders and nothing written. -/
theorem runConverter_master (outFile : String) (stops : Nat → Bool)
    (maps : Except String Unit) (ps : List ℚ) (genRes : Except String Unit)
    (cancelMsg : String) (eR wR bR : Except String Unit) :
    ((runConverter outFile stops maps ps genRes cancelMsg eR wR bR).reports = repsRead ∨
     (runConverter outFile stops maps ps genRes cancelMsg eR wR bR).reports
       = repsGen (engineLoop stops ps 1).1 ∨
     (runConverter outFile stops maps ps genRes cancelMsg eR wR bR).reports
       = repsWrite (engineLoop stops ps 1).1 ∨
     (runConverter outFile stops maps ps genRes cancelMsg eR wR bR).reports
       = repsDone (engineLoop stops ps 1).1) ∧
    ((runConverter outFile stops maps ps genRes cancelMsg eR wR bR).outcome = Except.ok () →
     (runConverter outFile stops maps ps genRes cancelMsg eR wR bR).reports
       = repsDone (engineLoop stops ps 1).1) ∧
    (maps = Except.ok () →
     (stops 0 = true ∨ (engineLoop stops ps 1).2.2 = false ∨
       stops (engineLoop stops ps 1).2.1 = true) →
     (runConverter outFile stops maps ps genRes cancelMsg eR wR bR).outcome.isOk = false ∧
     (runConverter outFile stops maps ps genRes cancelMsg eR wR bR).handed = false ∧
     (runConverter outFile stops maps ps genRes cancelMsg eR wR bR).invokedBrz = false ∧
     (runConverter outFile stops maps ps genRes cancelMsg eR wR bR).invokedBrdb = false ∧
     (runConverter outFile stops maps ps genRes cancelMsg eR wR bR).wrote = false) := by
  rcases maps with e | u
  · have hR : runConverter outFile stops (Except.error e) ps genRes cancelMsg eR wR bR
        = ⟨repsRead, Except.error e, false, false, false, false⟩ := by
      simp [runConverter]
    rw [hR]
    refine ⟨Or.inl rfl, ?_, ?_⟩
    · intro h
      simp at h
    · intro hm
      simp at hm
  · cases u
    cases h0 : stops 0
    case true =>
      have hR : runConverter outFile stops (Except.ok ()) ps genRes cancelMsg eR wR bR
          = ⟨repsRead, Except.error "Stopped by user", false, false, false, false⟩ := by
        simp [runConverter, h0]
      rw [hR]
      refine ⟨Or.inl rfl, ?_, ?_⟩
      · intro h
        simp at h
      · intro _ _
        simp [Except.isOk, Except.toBool]
    case false =>
      cases hcomp : (engineLoop stops ps 1).2.2
      case false =>
        have hR : runConverter outFile stops (Except.ok ()) ps genRes cancelMsg eR wR bR
            = ⟨repsGen (engineLoop stops ps 1).1, Except.error cancelMsg,
               false, false, false, false⟩ := by
          simp [runConverter, h0, hcomp]
        rw [hR]
        refine ⟨Or.inr (Or.inl rfl), ?_, ?_⟩
        · intro h
          simp at h
        · intro _ _
          simp [Except.isOk, Except.toBool]
      case true =>
        rcases genRes with e | u
        · have hR : runConverter outFile stops (Except.ok ()) ps (Except.error e) cancelMsg eR wR bR
              = ⟨repsGen (engineLoop stops ps 1).1, Except.error e,
                 false, false, false, false⟩ := by
            simp [runConverter, h0, hcomp]
          rw [hR]
          refine ⟨Or.inr (Or.inl rfl), ?_, ?_⟩
          · intro h
            simp at h
          · intro _ _
            simp [Except.isOk, Except.toBool]
        · cases u
          cases hk : stops (engineLoop stops ps 1).2.1
          case true =>
            have hR : runConverter outFile stops (Except.ok ()) ps (Except.ok ()) cancelMsg eR wR bR
                = ⟨repsGen (engineLoop stops ps 1).1, Except.error "Stopped by user",
                   false, false, false, false⟩ := by
              simp [runConverter, h0, hcomp, hk]
            rw [hR]
            refine ⟨Or.inr (Or.inl rfl), ?_, ?_⟩
            · intro h
              simp at h
            · intro _ _
              simp [Except.isOk, Except.toBool]
          case false =>
            rcases hd : outputDispatch outFile with e | f
            · have hR : runConverter outFile stops (Except.ok ()) ps (Except.ok ()) cancelMsg eR wR bR
                  = ⟨repsWrite (engineLoop stops ps 1).1, Except.error e,
                     true, false, false, false⟩ := by
                simp [runConverter, h0, hcomp, hk, hd]
              rw [hR]
              refine ⟨Or.inr (Or.inr (Or.inl rfl)), ?_, ?_⟩
              · intro h
                simp at h
              · intro _ hc
                simp at hc
            · cases f
              case brz =>
                rcases eR with e | u
                · have hR : runConverter outFile stops (Except.ok ()) ps (Except.ok ()) cancelMsg
                      (Except.error e) wR bR
                      = ⟨repsWrite (engineLoop stops ps 1).1,
                         Except.error ("failed to encode brz: " ++ e), true, true, false, false⟩ := by
                    simp [runConverter, h0, hcomp, hk, hd]
                  rw [hR]
                  refine ⟨Or.inr (Or.inr (Or.inl rfl)), ?_, ?_⟩
                  · intro h
                    simp at h
                  · intro _ hc
                    simp at hc
                · cases u
                  rcases wR with e | u
                  · have hR : runConverter outFile stops (Except.ok ()) ps (Except.ok ()) cancelMsg
                        (Except.ok ()) (Except.error e) bR
                        = ⟨repsWrite (engineLoop stops ps 1).1,
                           Except.error ("failed to write file: " ++ e), true, true, false, true⟩ := by
                      simp [runConverter, h0, hcomp, hk, hd]
                    rw [hR]
                    refine ⟨Or.inr (Or.inr (Or.inl rfl)), ?_, ?_⟩
                    · intro h
                      simp at h
                    · intro _ hc
                      simp at hc
                  · cases u
                    cases hk2 : stops ((engineLoop stops ps 1).2.1 + 1)
                    case true =>
                      have hR : runConverter outFile stops (Except.ok ()) ps (Except.ok ()) cancelMsg
                          (Except.ok ()) (Except.ok ()) bR
                          = ⟨repsWrite (engineLoop stops ps 1).1,
                             Except.error "Stopped by user", true, true, false, true⟩ := by
                        simp [runConverter, h0, hcomp, hk, hd, hk2]
                      rw [hR]
                      refine ⟨Or.inr (Or.inr (Or.inl rfl)), ?_, ?_⟩
                      · intro h
                        simp at h
                      · intro _ hc
                        simp at hc
                    case false =>
                      have hR : runConverter outFile stops (Except.ok ()) ps (Except.ok ()) cancelMsg
                          (Except.ok ()) (Except.ok ()) bR
                          = ⟨repsDone (engineLoop stops ps 1).1, Except.ok (),
                             true, true, false, true⟩ := by
                        simp [runConverter, h0, hcomp, hk, hd, hk2]
                      rw [hR]
                      refine ⟨Or.inr (Or.inr (Or.inr rfl)), fun _ => rfl, ?_⟩
                      intro _ hc
                      simp at hc
              case brdb =>
                rcases bR with e | u
                · have hR : runConverter outFile stops (Except.ok ()) ps (Except.ok ()) cancelMsg
                      eR wR (Except.error e)
                      = ⟨repsWrite (engineLoop stops ps 1).1,
                         Except.error ("failed to write file: " ++ e), true, false, true, true⟩ := by
                    simp [runConverter, h0, hcomp, hk, hd]
                  rw [hR]
                  refine ⟨Or.inr (Or.inr (Or.inl rfl)), ?_, ?_⟩
                  · intro h
                    simp at h
                  · intro _ hc
                    simp at hc
                · cases u
                  cases hk2 : stops ((engineLoop stops ps 1).2.1 + 1)
                  case true =>
                    have hR : runConverter outFile stops (Except.ok ()) ps (Except.ok ()) cancelMsg
                        eR wR (Except.ok ())
                        = ⟨repsWrite (engineLoop stops ps 1).1,
                           Except.error "Stopped by user", true, false, true, true⟩ := by
                      simp [runConverter, h0, hcomp, hk, hd, hk2]
                    rw [hR]
                    refine ⟨Or.inr (Or.inr (Or.inl rfl)), ?_, ?_⟩
                    · intro h
                      simp at h
                    · intro _ hc
                      simp at hc
                  case false =>
                    have hR : runConverter outFile stops (Except.ok ()) ps (Except.ok ()) cancelMsg
                        eR wR (Except.ok ())
                        = ⟨repsDone (engineLoop stops ps 1).1, Except.ok (),
                           true, false, true, true⟩ := by
                      simp [runConverter, h0, hcomp, hk, hd, hk2]
                    rw [hR]
                    refine ⟨Or.inr (Or.inr (Or.inr rfl)), fun _ => rfl, ?_⟩
                    intro _ hc
                    simp at hc

/-! ### C3: the progress-report contract -/

/-- C3 counterexample: at the end of a successful run the worker sends the
clear-sentinel `("", 2.0)` on the progress channel (app.rs:266), a reported
fraction that does not lie in `[0, 1]`. -/
theorem C3_counterexample :
    ("", (2 : ℚ)) ∈ okRun.reports ∧ ¬ ((2 : ℚ) ≤ 1) := by
  constructor
  · decide
  · norm_num

/-- C3 amended: assuming the engine's callback fractions are non-decreasing
and lie in `[0, 1]` (its specified contract), the full sequence of fractions
sent on the progress channel is monotonically non-decreasing; every reported
fraction lies in `[0, 1]` except the final `("", 2.0)` display-clearing
sentinel; and a successful run ends with that terminal sentinel. -/
theorem C3_amended (outFile : String) (stops : Nat → Bool) (maps : Except String Unit)
    (ps : List ℚ) (genRes : Except String Unit) (cancelMsg : String)
    (eR wR bR : Except String Unit)
    (hchain : List.Chain' (· ≤ ·) ps)
    (hbound : ∀ p ∈ ps, 0 ≤ p ∧ p ≤ 1) :
    List.Chain' (fun a b : String × ℚ => a.2 ≤ b.2)
      (runConverter outFile stops maps ps genRes cancelMsg eR wR bR).reports ∧
    (∀ r ∈ (runConverter outFile stops maps ps genRes cancelMsg eR wR bR).reports,
      0 ≤ r.2 ∧ (r.2 ≤ 1 ∨ r = ("", 2))) ∧
    ((runConverter outFile stops maps ps genRes cancelMsg eR wR bR).outcome = Except.ok () →
      (runConverter outFile stops maps ps genRes cancelMsg eR wR bR).reports.getLast?
        = some ("", 2)) := by
  have hc := engineLoop_chain stops ps 1 hchain
  have hb := engineLoop_bound stops ps 1 hbound
  obtain ⟨hshape, hok, _⟩ :=
    runConverter_master outFile stops maps ps genRes cancelMsg eR wR bR
  refine ⟨?_, ?_, ?_⟩
  · rcases hshape with h | h | h | h <;> rw [h]
    · simp [repsRead]
    · exact chain_repsGen _ hc hb
    · exact chain_repsWrite _ hc hb
    · exact chain_repsDone _ hc hb
  · intro r hr
    refine bound_repsDone (engineLoop stops ps 1).1 hb r ?_
    refine mem_repsDone_of_shape (engineLoop stops ps 1).1 r ?_
    rcases hshape with h | h | h | h <;> rw [h] at hr
    · exact Or.inl hr
    · exact Or.inr (Or.inl hr)
    · exact Or.inr (Or.inr (Or.inl hr))
    · exact Or.inr (Or.inr (Or.inr hr))
  · intro h
    rw [hok h, repsDone, List.getLast?_append_of_ne_nil _ (by simp)]
    rfl

/-- C3 witness: the amended statement applied to a concrete uninterrupted
run whose single engine callback fraction is `1/2`. -/
theorem C3_witness :
    List.Chain' (· ≤ ·) [(1 : ℚ) / 2] ∧
    (∀ p ∈ [(1 : ℚ) / 2], 0 ≤ p ∧ p ≤ 1) ∧
    (List.Chain' (fun a b : String × ℚ => a.2 ≤ b.2)
      (runConverter "out.brz" (fun _ => false) (Except.ok ()) [(1 : ℚ) / 2] (Except.ok ())
        "cm" (Except.ok ()) (Except.ok ()) (Except.ok ())).reports ∧
     (∀ r ∈ (runConverter "out.brz" (fun _ => false) (Except.ok ()) [(1 : ℚ) / 2] (Except.ok ())
        "cm" (Except.ok ()) (Except.ok ()) (Except.ok ())).reports,
       0 ≤ r.2 ∧ (r.2 ≤ 1 ∨ r = ("", 2))) ∧
     ((runConverter "out.brz" (fun _ => false) (Except.ok ()) [(1 : ℚ) / 2] (Except.ok ())
        "cm" (Except.ok ()) (Except.ok ()) (Except.ok ())).outcome = Except.ok () →
      (runConverter "out.brz" (fun _ => false) (Except.ok ()) [(1 : ℚ) / 2] (Except.ok ())
        "cm" (Except.ok ()) (Except.ok ()) (Except.ok ())).reports.getLast?
        = some ("", 2))) :=
  ⟨by simp, by norm_num,
    C3_amended "out.brz" (fun _ => false) (Except.ok ()) [(1 : ℚ) / 2] (Except.ok ())
      "cm" (Except.ok ()) (Except.ok ()) (Except.ok ()) (by simp) (by norm_num)⟩

/-! ### C4: cancellation behaviour -/

/-- C4 counterexample: the worker's promise type is `Result<(), String>` —
cancellation is delivered as `Err("Stopped by user")` (app.rs:161), the very
same `Err` constructor that carries failures (e.g. `Err("boom")` when image
reading fails), so the cancelled outcome is not a variant distinct from a
failed outcome. -/
theorem C4_counterexample :
    cancelRun.outcome = Except.error "Stopped by user" ∧
    failRun.outcome = Except.error "boom" ∧
    cancelRun.outcome.isOk = false ∧ failRun.outcome.isOk = false := by
  refine ⟨by decide, by decide, by decide, by decide⟩

/-- C4 amended: once images are loaded, a stop observed at any cancellation
poll up to the post-generation check makes the run end with an `Err` outcome
(`"Stopped by user"` at the explicit checks, or the generator's own message)
— the same `Err` variant used for failures — and no BrickSet is handed
towards the encoders, neither encoder is invoked, and no bytes are written
to the output target. -/
theorem C4_amended (outFile : String) (stops : Nat → Bool) (maps : Except String Unit)
    (ps : List ℚ) (genRes : Except String Unit) (cancelMsg : String)
    (eR wR bR : Except String Unit)
    (hmaps : maps = Except.ok ())
    (hcancel : stops 0 = true ∨ (engineLoop stops ps 1).2.2 = false ∨
      stops (engineLoop stops ps 1).2.1 = true) :
    (runConverter outFile stops maps ps genRes cancelMsg eR wR bR).outcome.isOk = false ∧
    (runConverter outFile stops maps ps genRes cancelMsg eR wR bR).handed = false ∧
    (runConverter outFile stops maps ps genRes cancelMsg eR wR bR).invokedBrz = false ∧
    (runConverter outFile stops maps ps genRes cancelMsg eR wR bR).invokedBrdb = false ∧
    (runConverter outFile stops maps ps genRes cancelMsg eR wR bR).wrote = false :=
  (runConverter_master outFile stops maps ps genRes cancelMsg eR wR bR).2.2 hmaps hcancel

/-- C4 witness: the amended statement applied to a run where Stop was
pressed before the first poll. -/
theorem C4_witness :
    (Except.ok () : Except String Unit) = Except.ok () ∧
    ((fun _ : Nat => true) 0 = true ∨
      (engineLoop (fun _ => true) [] 1).2.2 = false ∨
      (fun _ : Nat => true) (engineLoop (fun _ => true) [] 1).2.1 = true) ∧
    (cancelRun.outcome.isOk = false ∧ cancelRun.handed = false ∧
     cancelRun.invokedBrz = false ∧ cancelRun.invokedBrdb = false ∧
     cancelRun.wrote = false) :=
  ⟨rfl, Or.inl rfl,
    C4_amended "out.brz" (fun _ => true) (Except.ok ()) [] (Except.ok ()) "cm"
      (Except.ok ()) (Except.ok ()) (Except.ok ()) rfl (Or.inl rfl)⟩
